import Mathlib

/-!
Shallow embedding of the gsx_lab_agent repository (src/caldera/py_caldera.py
and src/service_script.py) together with theorems settling the frozen claims
about its specification.

Modelling conventions:
* Python dicts read from JSON are association lists `List (String × _)`;
  a genuine Python dict has pairwise distinct keys, which appears as a
  `Nodup` hypothesis where a theorem needs it.
* HTTP responses are abstracted to their parsed payloads: an oracle value
  of type `Option _` stands for the (truthy) parsed body of a successful
  response, `none` for a falsy / failed response.
* Python exceptions are modelled with `Except PyErr`; a function that the
  Python code lets raise returns `Except.error _` at exactly the inputs
  where the Python raises.
* Side effects (file writes, `time.sleep`, outbound POSTs) are recorded in
  explicit result fields or event traces.
-/

namespace GsxLab

/-! ## py_caldera.py — data model for reports -/

/-- One step object inside a report: the code reads `s['status']`,
`s['name']` and `s['description']`. -/
structure Step where
  status : Int
  name : String
  description : String
deriving DecidableEq, Repr

/-- The per-agent object `report_json['steps'][a]`: the code reads its
`'steps'` key, a list of steps. -/
structure AgentEntry where
  steps : List Step
deriving DecidableEq, Repr

/-- Shape of the `'steps'` value of a raw report: the key may be absent,
present but not a dict, or a dict mapping agent ids to entries. -/
inductive StepsField where
  | absent
  | nonDict
  | dict (m : List (String × AgentEntry))
deriving DecidableEq, Repr

/-- A raw operation report as consumed by `normalize_report_json`. -/
structure Report where
  steps : StepsField
deriving DecidableEq, Repr

/-- One normalized step emitted by `normalize_report_json`:
`{'Status': ..., 'Task': ..., 'Description': ...}`. -/
structure StepRes where
  label : String
  task : String
  description : String
deriving DecidableEq, Repr

/-- Python exceptions that the embedded code can raise. -/
inductive PyErr where
  | typeError
  | keyErrorInt (code : Int)
  | keyErrorStr (key : String)
deriving DecidableEq, Repr

/-- The module-level table `STATUS_CODES = {0: 'Fail', 1: 'Pass', 124: 'Pass'}`. -/
def STATUS_CODES : List (Int × String) := [(0, "Fail"), (1, "Pass"), (124, "Pass")]

/-- `get_steps_key(report_json)`: returns `report_json['steps'].keys()` when
the `'steps'` key exists and its value is a dict; otherwise Python falls off
the end of the function and returns `None` (modelled as `none`). -/
def get_steps_key (r : Report) : Option (List String) :=
  match r.steps with
  | StepsField.dict m => some (m.map Prod.fst)
  | _ => none

/-- The normalized result mapping being built: agent id to list of
normalized steps, in insertion order (a Python dict). -/
abbrev ResultMap := List (String × List StepRes)

/-- Combined effect of `if a not in result.keys(): result.update({a: []})`
followed by `result[a].append(sr)`: append to the first entry with key `a`,
or add a new `(a, [sr])` entry at the end. -/
def pushStep (res : ResultMap) (a : String) (sr : StepRes) : ResultMap :=
  match res with
  | [] => [(a, [sr])]
  | (k, v) :: rest =>
    if k = a then (k, v ++ [sr]) :: rest else (k, v) :: pushStep rest a sr

/-- Body of the inner loop of `normalize_report_json` for one step `s` of
agent `a`: tally `success`/`failed` by the `s['status'] == 0` test, then
look up `STATUS_CODES[s['status']]` (raising `KeyError` when the code is
not in the table) and append the normalized step. -/
def processStep (a : String) (st : ResultMap × Nat × Nat) (s : Step) :
    Except PyErr (ResultMap × Nat × Nat) :=
  let success := if s.status = 0 then st.2.1 + 1 else st.2.1
  let failed := if s.status = 0 then st.2.2 else st.2.2 + 1
  match STATUS_CODES.lookup s.status with
  | none => Except.error (PyErr.keyErrorInt s.status)
  | some label =>
      Except.ok (pushStep st.1 a (StepRes.mk label s.name s.description), success, failed)

/-- The subscript `report_json['steps'][a]`: raises `KeyError` when `a` is
not a key of the dict; subscripting a non-dict raises `TypeError` (never
reached by `normalize_report_json`, which only iterates keys of a dict). -/
def stepsLookup (r : Report) (a : String) : Except PyErr AgentEntry :=
  match r.steps with
  | StepsField.dict m =>
    match m.lookup a with
    | some e => Except.ok e
    | none => Except.error (PyErr.keyErrorStr a)
  | _ => Except.error PyErr.typeError

/-- Inner loop `for s in report_json['steps'][a]['steps']` of
`normalize_report_json`, threading the `(result, success, failed)` state. -/
def foldSteps (a : String) : List Step → ResultMap × Nat × Nat →
    Except PyErr (ResultMap × Nat × Nat)
  | [], st => Except.ok st
  | s :: rest, st =>
    match processStep a st s with
    | Except.error e => Except.error e
    | Except.ok st' => foldSteps a rest st'

/-- Outer loop `for a in agents` of `normalize_report_json`. -/
def foldAgents (r : Report) : List String → ResultMap × Nat × Nat →
    Except PyErr (ResultMap × Nat × Nat)
  | [], st => Except.ok st
  | a :: rest, st =>
    match stepsLookup r a with
    | Except.error e => Except.error e
    | Except.ok entry =>
      match foldSteps a entry.steps st with
      | Except.error e => Except.error e
      | Except.ok st' => foldAgents r rest st'

/-- The loops of `normalize_report_json` up to the final ratio computation.
`agents = get_steps_key(report_json)` is `None` when the `'steps'` key is
missing or not a dict, and `for a in None` then raises `TypeError`. -/
def normalize_core (r : Report) : Except PyErr (ResultMap × Nat × Nat) :=
  match get_steps_key r with
  | none => Except.error PyErr.typeError
  | some agents => foldAgents r agents ([], 0, 0)

/-- `normalize_report_json(report_json)`: returns the result mapping and
the ratio `100` when `failed == 0`, else `float(success / failed)`. -/
def normalize_report_json (r : Report) : Except PyErr (ResultMap × ℚ) :=
  match normalize_core r with
  | Except.error e => Except.error e
  | Except.ok (res, success, failed) =>
    Except.ok (res, if failed = 0 then (100 : ℚ) else (success : ℚ) / (failed : ℚ))

/-- Number of steps of a step list whose status code is `0` (these are the
steps the code tallies into `success`). -/
def stepSuccessCount (steps : List Step) : Nat :=
  steps.countP fun s => s.status == 0

/-- Number of steps of a step list whose status code is not `0` (tallied
into `failed`). -/
def stepFailedCount (steps : List Step) : Nat :=
  steps.countP fun s => !(s.status == 0)

/-- Total `success` tally a report should produce: status-0 steps summed
over every agent entry of the `'steps'` dict. -/
def reportSuccessCount (r : Report) : Nat :=
  match r.steps with
  | StepsField.dict m => (m.map fun p => stepSuccessCount p.2.steps).sum
  | _ => 0

/-- Total `failed` tally a report should produce: non-status-0 steps summed
over every agent entry of the `'steps'` dict. -/
def reportFailedCount (r : Report) : Nat :=
  match r.steps with
  | StepsField.dict m => (m.map fun p => stepFailedCount p.2.steps).sum
  | _ => 0

/-! ## py_caldera.py — operation tracker (`waiting_responses`, `check_operation_run`) -/

/-- An operation object as returned by the automation API's create endpoint
and stored in the module-level `waiting_responses` list; the code reads its
`'id'` key. -/
structure Op where
  id : String
deriving DecidableEq, Repr

/-- A status object returned by `GET operations/{id}`; the code reads its
`'state'` key (and `response.get('status')`, a key the object lacks). -/
structure Snapshot where
  state : String
deriving DecidableEq, Repr

/-- The scan of `check_operation_run`: `response_index = 0`, then
`for i in range(len(waiting_responses)): if waiting_responses[i]['id'] ==
operation_id: response_index = i; break` — yields the index of the first
match, and leaves the initial value `0` when there is no match. -/
def response_index (operation_id : String) : List Op → Nat → Nat
  | [], _ => 0
  | w :: rest, i =>
    if w.id = operation_id then i else response_index operation_id rest (i + 1)

/-- Observable outcome of one `check_operation_run` call: the updated
`waiting_responses` list, whether `get_operation_report(id, True)` was
called, whether `complete_operation.json` was written, and the returned
checkup payload. -/
structure CheckResult where
  waiting : List Op
  reportFetched : Bool
  artifactWritten : Bool
  ret : Option Snapshot
deriving DecidableEq, Repr

/-- `check_operation_run(operation_id, run_type)` (the `run_type` parameter
is unused by the body). `checkup` is the parsed payload of the
`GET operations/{id}` response, `none` when the response is falsy. When the
state is not `'running'` the code scans for the first matching index and
runs `del waiting_responses[response_index]` only under
`if response_index:` — which is false for index `0`; when the state is
exactly `'finished'` it fetches the report with agent output enabled and
writes `complete_operation.json`. -/
def check_operation_run (operation_id run_type : String)
    (checkup : Option Snapshot) (waiting : List Op) : CheckResult :=
  match checkup with
  | none => CheckResult.mk waiting false false none
  | some c =>
    if c.state ≠ "running" then
      let idx := response_index operation_id waiting 0
      let waiting' := if idx ≠ 0 then waiting.eraseIdx idx else waiting
      if c.state = "finished" then CheckResult.mk waiting' true true (some c)
      else CheckResult.mk waiting' false false (some c)
    else CheckResult.mk waiting false false (some c)

/-! ## py_caldera.py — `run_operation` and service_script.py -/

/-- The body posted by `run_operation` to `POST operations`:
`{'name': ..., 'adversary': {'adversary_id': ...}, 'group': ...,
'auto_close': ...}` with `auto_close` defaulting to `'true'`. -/
structure OperationRequest where
  name : String
  adversary_id : String
  group : String
  auto_close : String
deriving DecidableEq, Repr

/-- Observable outcome of one `run_operation` call: the value the function
returns, the updated `waiting_responses`, whether `new_operation.json` was
written, and the ids for which the trailing loop eagerly fetched a report.
The function body kept its last statement a bare loop, so Python returns
`None` — hence `ret` is always `none`. -/
structure RunOpResult where
  ret : Option Op
  posted : OperationRequest
  waiting : List Op
  wroteNewOperation : Bool
  reportFetches : List String
deriving DecidableEq, Repr

/-- `run_operation(name, adversary_id, group='', auto_close='true')`.
`opResp` is the parsed payload of the `POST operations` response (`none`
for a falsy response). On a truthy response the op is appended to
`waiting_responses` and `new_operation.json` written; then
`for w in waiting_responses: get_operation_report(w['id'], True)` runs; the
function has no `return` statement, so its value is `None`. -/
def run_operation (name adversary_id group : String) (opResp : Option Op)
    (waiting : List Op) : RunOpResult :=
  let req := OperationRequest.mk name adversary_id group "true"
  match opResp with
  | some op =>
    let waiting' := waiting ++ [op]
    RunOpResult.mk none req waiting' true (waiting'.map Op.id)
  | none => RunOpResult.mk none req waiting false (waiting.map Op.id)

/-- Outcome of one call to the creation function inside the retry loop of
`retry_run_operation`: the function either returns a value (truthy op dict
or falsy `None`) or raises an exception (caught by the wrapper). -/
inductive CreateOutcome where
  | ret (r : Option Op)
  | exc
deriving DecidableEq, Repr

/-- Observable outcome of `retry_run_operation`: its return value, how many
times the creation function was called, and how many `time.sleep(delay)`
calls ran. -/
structure RetryOutcome where
  ret : Option Op
  attempts : Nat
  sleeps : Nat
deriving DecidableEq, Repr

/-- The creation call at attempt index `i` fails: it returns a falsy value
or raises. -/
def failsAt (f : Nat → CreateOutcome) (i : Nat) : Prop :=
  f i = CreateOutcome.ret none ∨ f i = CreateOutcome.exc

/-- Loop of `retry_run_operation`: `for attempt in range(retries)`, run the
creation function inside `try`; a truthy result returns immediately, a
falsy result or exception falls through to `time.sleep(delay)` (note the
sleep also runs after the final failed attempt) and the next iteration;
after the loop, `return None`. -/
def retry_loop (f : Nat → CreateOutcome) :
    Nat → Nat → Nat → RetryOutcome
  | 0, attempt, sleeps => RetryOutcome.mk none attempt sleeps
  | remaining + 1, attempt, sleeps =>
    match f attempt with
    | CreateOutcome.ret (some op) => RetryOutcome.mk (some op) (attempt + 1) sleeps
    | _ => retry_loop f remaining (attempt + 1) (sleeps + 1)

/-- `retry_run_operation(operation_name, adversary, group, retries=3,
delay=5)`, with the creation call abstracted as the per-attempt outcome
function `f` (each recorded sleep is `delay` seconds long). -/
def retry_run_operation (f : Nat → CreateOutcome) (retries : Nat) : RetryOutcome :=
  retry_loop f retries 0 0

/-- One action item of the `'actions'` list fetched from the upstream
controller; every field the dispatch code reads, each possibly absent. -/
structure ActionItem where
  service : Option String
  task : Option String
  adversary : Option String
  group : Option String
  operation_name : Option String
  operation_id : Option String
deriving DecidableEq, Repr

/-- Externally observable events of one tick of the `main` loop. -/
inductive Event where
  | createAttempt (req : OperationRequest)
  | artifactNew
  | reportFetch (id : String) (agentOutput : Bool)
  | sleepBetween
  | relay (operation_name : Option String) (operation_id : Option String)
      (status : Option String)
deriving DecidableEq, Repr

/-- External world of one tick: the probe status (`none` for a network
exception), the plan fetch status, the parsed `'actions'` value (`none`
when the key is missing or not a list), and the payload of the n-th
creation POST of the tick. -/
structure TickOracle where
  probeStatus : Option Nat
  planStatus : Nat
  planActions : Option (List ActionItem)
  createResp : Nat → Option Op

/-- Observable outcome of one tick: the event trace, the final
`waiting_responses`, and whether an uncaught exception reached the
tick-level `except` handler (abandoning the rest of the tick). -/
structure TickOutcome where
  events : List Event
  waiting : List Op
  aborted : Bool
deriving Repr

/-- The `retry_run_operation` call as it runs inside the tick, with the
real `run_operation` as the creation function: each attempt issues a
creation POST (recorded as events), and because `run_operation` returns
`None` every attempt is treated as failed. -/
def retry_create_in_tick (opname adv group : String) (createResp : Nat → Option Op) :
    Nat → Nat → List Op → List Event → Option Op × Nat × List Op × List Event
  | 0, callNo, waiting, events => (none, callNo, waiting, events)
  | remaining + 1, callNo, waiting, events =>
    let r := run_operation opname adv group (createResp callNo) waiting
    let events' := events ++ [Event.createAttempt r.posted]
      ++ (if r.wroteNewOperation then [Event.artifactNew] else [])
      ++ r.reportFetches.map fun i => Event.reportFetch i true
    match r.ret with
    | some op => (some op, callNo + 1, r.waiting, events')
    | none =>
      retry_create_in_tick opname adv group createResp remaining (callNo + 1)
        r.waiting (events' ++ [Event.sleepBetween])

/-- The `for a in response_data['actions']` dispatch loop of `main`.
Items without a `'service'` key are skipped. Both branch conditions start
with `a['service'] == 'caldera'`, so `a['task']` is only evaluated when the
service is `'caldera'`; a missing `'task'` then raises `KeyError`, which no
handler inside the loop catches — the tick-level handler does, abandoning
the remaining items. The `run_operation` branch validates
`all([adversary, operation_name])` (absent or empty-string values are
falsy) and relays `status='started'` only on a truthy creation result. The
`check_operation` branch calls `check_operation_run(operation_id)` with one
argument, which raises `TypeError` (the definition requires `run_type`);
that exception is raised inside the branch's `try` and is caught and
logged, so the branch has no observable effect. -/
def dispatch_actions (createResp : Nat → Option Op) :
    List ActionItem → Nat → List Op → List Event → TickOutcome
  | [], _, waiting, events => TickOutcome.mk events waiting false
  | a :: rest, callNo, waiting, events =>
    match a.service with
    | none => dispatch_actions createResp rest callNo waiting events
    | some svc =>
      if svc = "caldera" then
        match a.task with
        | none => TickOutcome.mk events waiting true
        | some tsk =>
          if tsk = "run_operation" then
            match a.adversary, a.operation_name with
            | some adv, some opname =>
              if adv = "" ∨ opname = "" then
                dispatch_actions createResp rest callNo waiting events
              else
                match retry_create_in_tick opname adv (a.group.getD "")
                    createResp 3 callNo waiting events with
                | (some op, callNo', waiting', events') =>
                  dispatch_actions createResp rest callNo' waiting'
                    (events' ++ [Event.relay (some opname) (some op.id) (some "started")])
                | (none, callNo', waiting', events') =>
                  dispatch_actions createResp rest callNo' waiting' events'
            | _, _ => dispatch_actions createResp rest callNo waiting events
          else if tsk = "check_operation" then
            dispatch_actions createResp rest callNo waiting events
          else
            dispatch_actions createResp rest callNo waiting events
      else
        dispatch_actions createResp rest callNo waiting events

/-- One tick of the `while True` loop of `main`: probe the target URL (a
network exception is caught by the tick-level handler), on status 200 fetch
the plan, on plan status 200 dispatch the `'actions'` list when it is
present and a list; every other branch only logs. -/
def tick (o : TickOracle) (waiting : List Op) : TickOutcome :=
  match o.probeStatus with
  | none => TickOutcome.mk [] waiting true
  | some st =>
    if st = 200 then
      if o.planStatus = 200 then
        match o.planActions with
        | some actions => dispatch_actions o.createResp actions 0 waiting []
        | none => TickOutcome.mk [] waiting false
      else TickOutcome.mk [] waiting false
    else TickOutcome.mk [] waiting false

/-- End-to-end scenario A of the spec: probe 200, plan 200, one
`run_operation` action for adversary `adv-1` and operation `Op1`; every
creation POST succeeds on the server. -/
def scenarioA : TickOracle :=
  TickOracle.mk (some 200) 200
    (some [ActionItem.mk (some "caldera") (some "run_operation") (some "adv-1")
      none (some "Op1") none])
    (fun _ => some (Op.mk "op-123"))

/-- Predicate picking out creation-POST events. -/
def isCreateAttempt : Event → Bool
  | Event.createAttempt _ => true
  | _ => false

/-- Predicate picking out upstream status-relay POST events. -/
def isRelay : Event → Bool
  | Event.relay _ _ _ => true
  | _ => false

/-- Input oracle used to exhibit the behavior of a tick whose first action
has a `'service'` field (`caldera`) but no `'task'` field, followed by a
well-formed `run_operation` action. -/
def scenarioMissingTask : TickOracle :=
  TickOracle.mk (some 200) 200
    (some [ActionItem.mk (some "caldera") none none none none none,
      ActionItem.mk (some "caldera") (some "run_operation") (some "adv-2")
        none (some "Op2") none])
    (fun _ => some (Op.mk "op-9"))

/-! ## Helper lemmas -/

/-- Closed-form description of the `STATUS_CODES` dict lookup. -/
theorem lookup_status_eq (c : Int) :
    STATUS_CODES.lookup c =
      if c = 0 then some "Fail" else if c = 1 then some "Pass"
      else if c = 124 then some "Pass" else none := by
  by_cases h0 : c = 0
  · subst h0; rfl
  · by_cases h1 : c = 1
    · subst h1; rfl
    · by_cases h2 : c = 124
      · subst h2; rfl
      · have e0 : (c == 0) = false := beq_eq_false_iff_ne.mpr h0
        have e1 : (c == 1) = false := beq_eq_false_iff_ne.mpr h1
        have e2 : (c == 124) = false := beq_eq_false_iff_ne.mpr h2
        simp [STATUS_CODES, List.lookup, e0, e1, e2, h0, h1, h2]

/-! ## Claims C1–C5 -/

/-- Claim C1 (code behavior at the failing inputs): when the input report
lacks a `steps` key, or its `steps` value is not a mapping,
`normalize_report_json` does NOT return an empty mapping with ratio 100 —
`get_steps_key` returns `None` and `for a in agents` raises `TypeError`. -/
theorem claim_C1_normalize_raises_without_steps :
    normalize_report_json (Report.mk StepsField.absent) = Except.error PyErr.typeError
  ∧ normalize_report_json (Report.mk StepsField.nonDict) = Except.error PyErr.typeError :=
  And.intro rfl rfl

/-- Claim C2 (code behavior at the failing input): after a poll observes a
non-`running` state, a handle whose first match sits at index 0 of
`waiting_responses` is NOT removed (the guard `if response_index:` is false
at index 0), while the same poll does remove a handle at index 1. -/
theorem claim_C2_index_zero_survives :
    (check_operation_run "op1" "" (some (Snapshot.mk "finished")) [Op.mk "op1"]).waiting
      = [Op.mk "op1"]
  ∧ (check_operation_run "op2" "" (some (Snapshot.mk "finished"))
      [Op.mk "op1", Op.mk "op2"]).waiting = [Op.mk "op1"] :=
  And.intro rfl rfl

/-- Claim C3 (code behavior at the failing input): in a tick where the
probe returns 200 and the plan contains one `run_operation` action for
adversary `adv-1` and operation `Op1`, with every creation POST succeeding
on the server, the code makes THREE creation attempts (each with name
`Op1`, adversary `adv-1`, group `""`) and sends NO status relay — because
`run_operation` has no `return` statement, the retry wrapper treats every
attempt as failed. -/
theorem claim_C3_scenarioA_three_attempts_no_relay :
    ((tick scenarioA []).events.filter isCreateAttempt).length = 3
  ∧ (tick scenarioA []).events.count
      (Event.createAttempt (OperationRequest.mk "Op1" "adv-1" "" "true")) = 3
  ∧ (tick scenarioA []).events.filter isRelay = [] :=
  And.intro rfl (And.intro rfl rfl)

/-- Claim C4: for every step processed by `normalize_report_json`, the
classification follows the fixed (inverted) table — a step with status
code 0 is labeled `Fail` yet increments the `success` tally, and a step
with status code 1 or 124 is labeled `Pass` and increments the `failed`
tally. -/
theorem claim_C4_inverted_classification (a : String) (st : ResultMap × Nat × Nat)
    (s : Step) :
    (s.status = 0 → processStep a st s =
      Except.ok (pushStep st.1 a (StepRes.mk "Fail" s.name s.description),
        st.2.1 + 1, st.2.2))
  ∧ ((s.status = 1 ∨ s.status = 124) → processStep a st s =
      Except.ok (pushStep st.1 a (StepRes.mk "Pass" s.name s.description),
        st.2.1, st.2.2 + 1)) := by
  constructor
  · intro h
    simp [processStep, lookup_status_eq, h]
  · rintro (h | h) <;> simp [processStep, lookup_status_eq, h]

/-- Witness for claim C4 at concrete steps of status 0 and status 1. -/
theorem claim_C4_witness :
    processStep "a" ([], 0, 0) (Step.mk 0 "t" "d") =
      Except.ok ([("a", [StepRes.mk "Fail" "t" "d"])], 1, 0)
  ∧ processStep "a" ([], 0, 0) (Step.mk 1 "t" "d") =
      Except.ok ([("a", [StepRes.mk "Pass" "t" "d"])], 0, 1) :=
  And.intro
    ((claim_C4_inverted_classification "a" ([], 0, 0) (Step.mk 0 "t" "d")).1 rfl)
    ((claim_C4_inverted_classification "a" ([], 0, 0) (Step.mk 1 "t" "d")).2 (Or.inl rfl))

/-- Claim C5 (counterexample): classification is NOT total — a step whose
status code is 2 (outside the `STATUS_CODES` table) makes
`normalize_report_json` raise `KeyError` instead of classifying it. -/
theorem claim_C5_counterexample :
    normalize_report_json
      (Report.mk (StepsField.dict [("a1", AgentEntry.mk [Step.mk 2 "t" "d"])]))
      = Except.error (PyErr.keyErrorInt 2) := rfl

/-- Claim C5 (amended): status classification is a deterministic,
state-free function of the step status code per the fixed table, but it is
defined only on {0, 1, 124}; any other status code has no table entry and
the per-step processing of `normalize_report_json` raises `KeyError` for
it instead of classifying. -/
theorem claim_C5_amended_partial_classification :
    (∀ c : Int, STATUS_CODES.lookup c =
      if c = 0 then some "Fail" else if c = 1 then some "Pass"
      else if c = 124 then some "Pass" else none)
  ∧ ∀ (a : String) (st : ResultMap × Nat × Nat) (s : Step),
      s.status ≠ 0 → s.status ≠ 1 → s.status ≠ 124 →
      processStep a st s = Except.error (PyErr.keyErrorInt s.status) := by
  refine And.intro lookup_status_eq ?_
  intro a st s h0 h1 h2
  simp [processStep, lookup_status_eq, h0, h1, h2]

/-- Witness for the amended claim C5 at a concrete out-of-table status. -/
theorem claim_C5_amended_witness :
    processStep "a" ([], 0, 0) (Step.mk 2 "t" "d") = Except.error (PyErr.keyErrorInt 2) :=
  claim_C5_amended_partial_classification.2 "a" ([], 0, 0) (Step.mk 2 "t" "d")
    (by decide) (by decide) (by decide)

/-! ## Claim C6 — counting lemmas and the ratio -/

/-- A successful `processStep` adjusts the two tallies by exactly the
`s['status'] == 0` test. -/
theorem processStep_counts (a : String) (st : ResultMap × Nat × Nat) (s : Step)
    (st' : ResultMap × Nat × Nat) (h : processStep a st s = Except.ok st') :
    st'.2.1 = (if s.status = 0 then st.2.1 + 1 else st.2.1)
    ∧ st'.2.2 = (if s.status = 0 then st.2.2 else st.2.2 + 1) := by
  unfold processStep at h
  rcases hl : STATUS_CODES.lookup s.status with _ | label
  · rw [hl] at h; cases h
  · rw [hl] at h
    cases h
    constructor <;> rfl

/-- A successful inner loop over a step list adds that list's status-0
count to `success` and its non-status-0 count to `failed`. -/
theorem foldSteps_counts (a : String) :
    ∀ (steps : List Step) (st st' : ResultMap × Nat × Nat),
    foldSteps a steps st = Except.ok st' →
    st'.2.1 = st.2.1 + stepSuccessCount steps
    ∧ st'.2.2 = st.2.2 + stepFailedCount steps := by
  intro steps
  induction steps with
  | nil =>
    intro st st' h
    cases h
    simp [stepSuccessCount, stepFailedCount]
  | cons s rest ih =>
    intro st st' h
    unfold foldSteps at h
    rcases hp : processStep a st s with e | st1
    · rw [hp] at h; cases h
    · rw [hp] at h
      have hc := processStep_counts a st s st1 hp
      have hr := ih st1 st' h
      by_cases h0 : s.status = 0 <;>
        simp only [h0, if_pos, if_neg, if_true, if_false] at hc <;>
        simp [stepSuccessCount, stepFailedCount, List.countP_cons, h0, hr.1, hr.2,
          hc.1, hc.2] <;> omega

/-- In an association list with pairwise distinct keys, `lookup` finds
exactly the entry a pair belongs to. -/
theorem lookup_mem_of_nodup :
    ∀ (m : List (String × AgentEntry)) (a : String) (e : AgentEntry),
    (m.map Prod.fst).Nodup → (a, e) ∈ m → m.lookup a = some e := by
  intro m
  induction m with
  | nil => intro a e _ hmem; cases hmem
  | cons p t ih =>
    intro a e hnd hmem
    rw [List.map_cons] at hnd
    rcases List.nodup_cons.mp hnd with ⟨hk, hnd'⟩
    rcases List.mem_cons.mp hmem with h | h
    · cases h
      simp [List.lookup]
    · have ha : a ∈ t.map Prod.fst := List.mem_map.mpr ⟨(a, e), h, rfl⟩
      have hne : a ≠ p.1 := fun hEq => hk (hEq ▸ ha)
      have : (a == p.1) = false := beq_eq_false_iff_ne.mpr hne
      simp [List.lookup, this, ih a e hnd' h]

/-- A successful outer loop over the agents of a `steps` dict accumulates
exactly the per-entry step counts, provided every entry is the one its key
looks up to. -/
theorem foldAgents_counts (r : Report) :
    ∀ (ms : List (String × AgentEntry)) (st st' : ResultMap × Nat × Nat),
    (∀ p, p ∈ ms → stepsLookup r p.1 = Except.ok p.2) →
    foldAgents r (ms.map Prod.fst) st = Except.ok st' →
    st'.2.1 = st.2.1 + (ms.map fun p => stepSuccessCount p.2.steps).sum
    ∧ st'.2.2 = st.2.2 + (ms.map fun p => stepFailedCount p.2.steps).sum := by
  intro ms
  induction ms with
  | nil =>
    intro st st' _ h
    cases h
    simp
  | cons p t ih =>
    intro st st' hlk h
    simp only [List.map_cons] at h
    unfold foldAgents at h
    split at h
    · rename_i e heq
      have := hlk p (List.mem_cons_self p t)
      rw [heq] at this
      cases this
    · rename_i entry heq
      have hent := hlk p (List.mem_cons_self p t)
      rw [heq] at hent
      injection hent with hent
      subst hent
      split at h
      · cases h
      · rename_i st1 hf
        have h1 := foldSteps_counts p.1 p.2.steps st st1 hf
        have h2 := ih st1 st' (fun q hq => hlk q (List.mem_cons_of_mem p hq)) h
        simp only [List.map_cons, List.sum_cons]
        omega

/-- Claim C6: whenever `normalize_report_json` returns, the ratio is the
fixed formula — `100` when the total non-status-0 step count is zero
(regardless of the status-0 count), else the status-0 count divided by the
non-status-0 count. The `Nodup` hypothesis states that the `steps` value
is a genuine dict (distinct agent keys). -/
theorem claim_C6_ratio_formula (r : Report) (res : ResultMap) (ratio : ℚ)
    (hnd : ∀ m, r.steps = StepsField.dict m → (m.map Prod.fst).Nodup)
    (h : normalize_report_json r = Except.ok (res, ratio)) :
    ratio = if reportFailedCount r = 0 then (100 : ℚ)
      else (reportSuccessCount r : ℚ) / (reportFailedCount r : ℚ) := by
  obtain ⟨sf⟩ := r
  cases sf with
  | absent => simp [normalize_report_json, normalize_core, get_steps_key] at h
  | nonDict => simp [normalize_report_json, normalize_core, get_steps_key] at h
  | dict m =>
    have hc : normalize_core (Report.mk (StepsField.dict m))
        = foldAgents (Report.mk (StepsField.dict m)) (m.map Prod.fst) ([], 0, 0) := rfl
    rcases hfa : foldAgents (Report.mk (StepsField.dict m)) (m.map Prod.fst) ([], 0, 0)
      with e | st0
    · rw [normalize_report_json, hc, hfa] at h
      cases h
    · obtain ⟨res0, success, failed⟩ := st0
      rw [normalize_report_json, hc, hfa] at h
      simp only [Except.ok.injEq, Prod.mk.injEq] at h
      obtain ⟨h1, h2⟩ := h
      have hlk : ∀ p, p ∈ m →
          stepsLookup (Report.mk (StepsField.dict m)) p.1 = Except.ok p.2 := by
        intro p hp
        have := lookup_mem_of_nodup m p.1 p.2 (hnd m rfl) hp
        simp [stepsLookup, this]
      have hcounts := foldAgents_counts (Report.mk (StepsField.dict m)) m
        ([], 0, 0) (res0, success, failed) hlk hfa
      simp only at hcounts
      have hs : success = reportSuccessCount (Report.mk (StepsField.dict m)) := by
        simp only [reportSuccessCount]
        omega
      have hf : failed = reportFailedCount (Report.mk (StepsField.dict m)) := by
        simp only [reportFailedCount]
        omega
      rw [← h2, hs, hf]

/-- Witness for claim C6 on the empty-dict report (no steps at all, so the
failed tally is zero and the sentinel 100 is returned). -/
theorem claim_C6_witness :
    (100 : ℚ) = if reportFailedCount (Report.mk (StepsField.dict [])) = 0 then (100 : ℚ)
      else (reportSuccessCount (Report.mk (StepsField.dict [])) : ℚ)
        / (reportFailedCount (Report.mk (StepsField.dict [])) : ℚ) :=
  claim_C6_ratio_formula (Report.mk (StepsField.dict [])) [] 100
    (by intro m hm; cases hm; simp) rfl

/-! ## Claim C10 — result keys -/

/-- Keys after `pushStep` are the old keys plus the pushed agent. -/
theorem mem_pushStep_keys :
    ∀ (res : ResultMap) (a : String) (sr : StepRes) (b : String),
    b ∈ (pushStep res a sr).map Prod.fst ↔ b ∈ res.map Prod.fst ∨ b = a := by
  intro res a sr
  induction res with
  | nil => intro b; simp [pushStep]
  | cons p t ih =>
    intro b
    obtain ⟨k, v⟩ := p
    by_cases hk : k = a
    · subst hk
      simp only [pushStep, if_pos rfl, List.map_cons]
      constructor
      · intro hmem
        exact Or.inl hmem
      · rintro (hmem | hEq)
        · exact hmem
        · subst hEq; simp
    · simp only [pushStep, if_neg hk, List.map_cons, List.mem_cons]
      rw [ih b]
      tauto

/-- Inversion of `stepsLookup` on a dict-shaped report. -/
theorem stepsLookup_dict_ok (m : List (String × AgentEntry)) (b : String)
    (e : AgentEntry) :
    stepsLookup (Report.mk (StepsField.dict m)) b = Except.ok e ↔
      m.lookup b = some e := by
  constructor
  · intro h
    rcases hlb : m.lookup b with _ | x
    · have hred : stepsLookup (Report.mk (StepsField.dict m)) b
          = Except.error (PyErr.keyErrorStr b) := by
        simp [stepsLookup, hlb]
      rw [hred] at h
      exact Except.noConfusion h
    · have hred : stepsLookup (Report.mk (StepsField.dict m)) b = Except.ok x := by
        simp [stepsLookup, hlb]
      rw [hred] at h
      injection h with h
      exact congrArg some h
  · intro h
    simp [stepsLookup, h]

/-- A successful `processStep` pushes onto the result map of agent `a`. -/
theorem processStep_shape (a : String) (st : ResultMap × Nat × Nat) (s : Step)
    (st' : ResultMap × Nat × Nat) (h : processStep a st s = Except.ok st') :
    ∃ sr, st'.1 = pushStep st.1 a sr := by
  unfold processStep at h
  rcases hl : STATUS_CODES.lookup s.status with _ | label
  · rw [hl] at h
    cases h
  · rw [hl] at h
    cases h
    exact ⟨_, rfl⟩

/-- Keys produced by a successful inner step loop: an old key, or the
looping agent when its step list is nonempty. -/
theorem foldSteps_keys (a : String) :
    ∀ (steps : List Step) (st st' : ResultMap × Nat × Nat),
    foldSteps a steps st = Except.ok st' →
    ∀ b, b ∈ st'.1.map Prod.fst →
      b ∈ st.1.map Prod.fst ∨ (b = a ∧ steps ≠ []) := by
  intro steps
  induction steps with
  | nil =>
    intro st st' h b hb
    cases h
    exact Or.inl hb
  | cons s rest ih =>
    intro st st' h b hb
    unfold foldSteps at h
    split at h
    · cases h
    · rename_i st1 hp
      rcases ih st1 st' h b hb with hmem | ⟨hEq, _⟩
      · obtain ⟨sr, hsr⟩ := processStep_shape a st s st1 hp
        rw [hsr] at hmem
        rcases (mem_pushStep_keys st.1 a sr b).mp hmem with hmem' | hEq
        · exact Or.inl hmem'
        · exact Or.inr ⟨hEq, List.cons_ne_nil s rest⟩
      · exact Or.inr ⟨hEq, List.cons_ne_nil s rest⟩

/-- Keys produced by a successful agent loop: an old key, or an agent whose
looked-up entry has a nonempty step list. -/
theorem foldAgents_keys (r : Report) :
    ∀ (agents : List String) (st st' : ResultMap × Nat × Nat),
    foldAgents r agents st = Except.ok st' →
    ∀ b, b ∈ st'.1.map Prod.fst →
      b ∈ st.1.map Prod.fst
      ∨ ∃ e, stepsLookup r b = Except.ok e ∧ e.steps ≠ [] := by
  intro agents
  induction agents with
  | nil =>
    intro st st' h b hb
    cases h
    exact Or.inl hb
  | cons a rest ih =>
    intro st st' h b hb
    unfold foldAgents at h
    split at h
    · cases h
    · rename_i entry heq
      split at h
      · cases h
      · rename_i st1 hf
        rcases ih st1 st' h b hb with hmem | hx
        · rcases foldSteps_keys a entry.steps st st1 hf b hmem with hmem' | ⟨hEq, hne⟩
          · exact Or.inl hmem'
          · subst hEq
            exact Or.inr ⟨entry, heq, hne⟩
        · exact Or.inr hx

/-- Claim C10: an agent appears as a key of the normalized result mapping
only when its entry in the report's `steps` dict has at least one step; an
agent whose step list is empty is absent from the output. -/
theorem claim_C10_agent_keys_have_steps (r : Report) (res : ResultMap) (ratio : ℚ)
    (h : normalize_report_json r = Except.ok (res, ratio)) :
    (∀ b, b ∈ res.map Prod.fst →
      ∃ m e, r.steps = StepsField.dict m ∧ m.lookup b = some e ∧ e.steps ≠ [])
  ∧ (∀ m b e, r.steps = StepsField.dict m → m.lookup b = some e → e.steps = [] →
      b ∉ res.map Prod.fst) := by
  obtain ⟨sf⟩ := r
  cases sf with
  | absent => simp [normalize_report_json, normalize_core, get_steps_key] at h
  | nonDict => simp [normalize_report_json, normalize_core, get_steps_key] at h
  | dict m =>
    have hc : normalize_core (Report.mk (StepsField.dict m))
        = foldAgents (Report.mk (StepsField.dict m)) (m.map Prod.fst) ([], 0, 0) := rfl
    rcases hfa : foldAgents (Report.mk (StepsField.dict m)) (m.map Prod.fst) ([], 0, 0)
      with e | st0
    · rw [normalize_report_json, hc, hfa] at h
      cases h
    · obtain ⟨res0, success, failed⟩ := st0
      rw [normalize_report_json, hc, hfa] at h
      simp only [Except.ok.injEq, Prod.mk.injEq] at h
      obtain ⟨h1, _⟩ := h
      subst h1
      have hmain : ∀ b, b ∈ res0.map Prod.fst →
          ∃ e, stepsLookup (Report.mk (StepsField.dict m)) b = Except.ok e
            ∧ e.steps ≠ [] := by
        intro b hb
        rcases foldAgents_keys (Report.mk (StepsField.dict m)) (m.map Prod.fst)
          ([], 0, 0) (res0, success, failed) hfa b hb with hmem | hx
        · simp at hmem
        · exact hx
      constructor
      · intro b hb
        obtain ⟨e, he, hne⟩ := hmain b hb
        exact ⟨m, e, rfl, (stepsLookup_dict_ok m b e).mp he, hne⟩
      · intro m' b e hm' hl he hb
        obtain ⟨e', he', hne'⟩ := hmain b hb
        injection hm' with hm'
        subst hm'
        have := (stepsLookup_dict_ok m b e').mp he'
        rw [hl] at this
        injection this with this
        subst this
        exact hne' he

/-- Witness for claim C10: a report with agent `a` (one status-0 step) and
agent `b` (no steps) yields a result keyed by `a` only. -/
theorem claim_C10_witness :
    ("b" : String) ∉ ([("a", [StepRes.mk "Fail" "t" "d"])] : ResultMap).map Prod.fst :=
  (claim_C10_agent_keys_have_steps
    (Report.mk (StepsField.dict
      [("a", AgentEntry.mk [Step.mk 0 "t" "d"]), ("b", AgentEntry.mk [])]))
    [("a", [StepRes.mk "Fail" "t" "d"])] 100 rfl).2
    [("a", AgentEntry.mk [Step.mk 0 "t" "d"]), ("b", AgentEntry.mk [])]
    "b" (AgentEntry.mk []) rfl rfl rfl

/-! ## Claim C7 — the retry wrapper -/

/-- The retry loop never runs the creation function more than the number
of remaining iterations. -/
theorem retry_loop_attempts_le (f : Nat → CreateOutcome) :
    ∀ (rem att slp : Nat), (retry_loop f rem att slp).attempts ≤ att + rem := by
  intro rem
  induction rem with
  | zero => intro att slp; simp [retry_loop]
  | succ r ih =>
    intro att slp
    cases hf : f att with
    | ret ro =>
      cases ro with
      | some op => simp [retry_loop, hf]
      | none =>
        simp only [retry_loop, hf]
        exact le_trans (ih (att + 1) (slp + 1)) (by omega)
    | exc =>
      simp only [retry_loop, hf]
      exact le_trans (ih (att + 1) (slp + 1)) (by omega)

/-- If the first `k` attempts fail and attempt `k` returns a truthy op,
the retry loop stops there: `k + 1` calls and `k` sleeps. -/
theorem retry_loop_success (f : Nat → CreateOutcome) (op : Op) :
    ∀ (k rem att slp : Nat), k < rem →
    (∀ i, i < k → failsAt f (att + i)) →
    f (att + k) = CreateOutcome.ret (some op) →
    retry_loop f rem att slp = RetryOutcome.mk (some op) (att + k + 1) (slp + k) := by
  intro k
  induction k with
  | zero =>
    intro rem att slp hlt _ hsucc
    cases rem with
    | zero => omega
    | succ r =>
      have hs : f att = CreateOutcome.ret (some op) := by simpa using hsucc
      simp [retry_loop, hs]
  | succ j ih =>
    intro rem att slp hlt hfails hsucc
    cases rem with
    | zero => omega
    | succ r =>
      have hf0 : failsAt f att := by simpa using hfails 0 (by omega)
      have step : retry_loop f (r + 1) att slp = retry_loop f r (att + 1) (slp + 1) := by
        rcases hf0 with h | h <;> simp [retry_loop, h]
      have hfails' : ∀ i, i < j → failsAt f (att + 1 + i) := by
        intro i hi
        have := hfails (i + 1) (by omega)
        rwa [show att + (i + 1) = att + 1 + i by omega] at this
      have hsucc' : f (att + 1 + j) = CreateOutcome.ret (some op) := by
        rwa [show att + (j + 1) = att + 1 + j by omega] at hsucc
      rw [step, ih r (att + 1) (slp + 1) (by omega) hfails' hsucc']
      simp only [RetryOutcome.mk.injEq]
      refine ⟨trivial, by omega, by omega⟩

/-- If every attempt fails, the retry loop exhausts all iterations and
returns the `None` sentinel (sleeping once per attempt, the last attempt
included). -/
theorem retry_loop_all_fail (f : Nat → CreateOutcome) :
    ∀ (rem att slp : Nat), (∀ i, i < rem → failsAt f (att + i)) →
    retry_loop f rem att slp = RetryOutcome.mk none (att + rem) (slp + rem) := by
  intro rem
  induction rem with
  | zero => intro att slp _; simp [retry_loop]
  | succ r ih =>
    intro att slp hfails
    have hf0 : failsAt f att := by simpa using hfails 0 (by omega)
    have step : retry_loop f (r + 1) att slp = retry_loop f r (att + 1) (slp + 1) := by
      rcases hf0 with h | h <;> simp [retry_loop, h]
    have hfails' : ∀ i, i < r → failsAt f (att + 1 + i) := by
      intro i hi
      have := hfails (i + 1) (by omega)
      rwa [show att + (i + 1) = att + 1 + i by omega] at this
    rw [step, ih (att + 1) (slp + 1) hfails']
    simp only [RetryOutcome.mk.injEq]
    refine ⟨trivial, by omega, by omega⟩

/-- Claim C7: the retry wrapper calls the creation function at most
`retries` times; when the first `k` attempts fail (falsy result or
exception) and attempt `k` returns a truthy handle, it returns that handle
after `k + 1` attempts and exactly `k` sleeps (so: failing twice and then
succeeding with `retries = 3` gives the result after exactly 2 sleeps);
when every attempt fails it returns the `None` sentinel, never raising,
after exactly `retries` attempts. -/
theorem claim_C7_retry_wrapper (f : Nat → CreateOutcome) (retries : Nat) :
    (retry_run_operation f retries).attempts ≤ retries
  ∧ (∀ k op, k < retries → (∀ i, i < k → failsAt f i) →
      f k = CreateOutcome.ret (some op) →
      retry_run_operation f retries = RetryOutcome.mk (some op) (k + 1) k)
  ∧ ((∀ i, i < retries → failsAt f i) →
      retry_run_operation f retries = RetryOutcome.mk none retries retries) := by
  refine ⟨?_, ?_, ?_⟩
  · have h := retry_loop_attempts_le f retries 0 0
    simpa [retry_run_operation] using h
  · intro k op hk hfails hsucc
    have h := retry_loop_success f op k retries 0 0 hk
      (by simpa using hfails) (by simpa using hsucc)
    simpa [retry_run_operation] using h
  · intro hfails
    have h := retry_loop_all_fail f retries 0 0 (by simpa using hfails)
    simpa [retry_run_operation] using h

/-- Witness for claim C7: a creation function that raises on its first two
attempts and succeeds on the third, with `retries = 3`, yields the
successful handle after 3 attempts and exactly 2 sleeps. -/
theorem claim_C7_witness :
    retry_run_operation
      (fun i => if i < 2 then CreateOutcome.exc else CreateOutcome.ret (some (Op.mk "h")))
      3 = RetryOutcome.mk (some (Op.mk "h")) 3 2 :=
  (claim_C7_retry_wrapper
    (fun i => if i < 2 then CreateOutcome.exc else CreateOutcome.ret (some (Op.mk "h")))
    3).2.1 2 (Op.mk "h") (by decide)
    (fun i hi => Or.inr (by simp [hi]))
    (by decide)

/-! ## Claim C8 — finished-state asymmetry of the tracker poll -/

/-- The index scan returns `i` plus the length of a prefix with no
matching id, when the element right after the prefix matches. -/
theorem response_index_first_match (operation_id : String) :
    ∀ (pre : List Op) (w : Op) (rest : List Op) (i : Nat),
    (∀ p, p ∈ pre → p.id ≠ operation_id) → w.id = operation_id →
    response_index operation_id (pre ++ w :: rest) i = i + pre.length := by
  intro pre
  induction pre with
  | nil =>
    intro w rest i _ hw
    simp [response_index, hw]
  | cons p t ih =>
    intro w rest i hpre hw
    have hp : p.id ≠ operation_id := hpre p (List.mem_cons_self p t)
    show (if p.id = operation_id then i
      else response_index operation_id (t ++ w :: rest) (i + 1)) = i + (p :: t).length
    rw [if_neg hp,
      ih w rest (i + 1) (fun q hq => hpre q (List.mem_cons_of_mem p hq)) hw,
      List.length_cons]
    omega

/-- Deleting at the index right after a prefix removes the element there. -/
theorem eraseIdx_append_cons (pre : List Op) (w : Op) (rest : List Op) :
    (pre ++ w :: rest).eraseIdx pre.length = pre ++ rest := by
  induction pre with
  | nil => rfl
  | cons p t ih =>
    simp only [List.cons_append, List.length_cons, List.eraseIdx_cons_succ, ih]

/-- Claim C8 (counterexample): a poll that observes the non-running,
non-finished state `cancelled` on a handle sitting at index 0 of the
registry fetches no report and writes no artifact — but it also does NOT
prune the handle, contrary to the claim. -/
theorem claim_C8_counterexample :
    (check_operation_run "op1" "" (some (Snapshot.mk "cancelled")) [Op.mk "op1"]).reportFetched
      = false
  ∧ (check_operation_run "op1" "" (some (Snapshot.mk "cancelled")) [Op.mk "op1"]).artifactWritten
      = false
  ∧ (check_operation_run "op1" "" (some (Snapshot.mk "cancelled")) [Op.mk "op1"]).waiting
      = [Op.mk "op1"] :=
  And.intro rfl (And.intro rfl rfl)

/-- Claim C8 (amended): on any observed non-running state, the report is
fetched (with agent output enabled) and the completion artifact written if
and only if the state is exactly `finished`; a handle whose first match
sits at index 0 of the registry is left in place, while a first match
after a non-matching nonempty prefix is removed. -/
theorem claim_C8_finished_asymmetry (operation_id run_type : String) (c : Snapshot)
    (waiting : List Op) (hnr : c.state ≠ "running") :
    ((check_operation_run operation_id run_type (some c) waiting).reportFetched = true
      ↔ c.state = "finished")
  ∧ ((check_operation_run operation_id run_type (some c) waiting).artifactWritten = true
      ↔ c.state = "finished")
  ∧ (∀ w rest, waiting = w :: rest → w.id = operation_id →
      (check_operation_run operation_id run_type (some c) waiting).waiting = waiting)
  ∧ (∀ pre w rest, waiting = pre ++ w :: rest → pre ≠ [] →
      (∀ p, p ∈ pre → p.id ≠ operation_id) → w.id = operation_id →
      (check_operation_run operation_id run_type (some c) waiting).waiting
        = pre ++ rest) := by
  refine ⟨?_, ?_, ?_, ?_⟩
  · by_cases hf : c.state = "finished" <;> simp [check_operation_run, hnr, hf]
  · by_cases hf : c.state = "finished" <;> simp [check_operation_run, hnr, hf]
  · intro w rest hw hid
    subst hw
    by_cases hf : c.state = "finished" <;>
      simp [check_operation_run, hnr, hf, response_index, hid]
  · intro pre w rest hw hne hpre hid
    subst hw
    have hidx : response_index operation_id (pre ++ w :: rest) 0 = pre.length := by
      rw [response_index_first_match operation_id pre w rest 0 hpre hid]
      omega
    have hlen : pre.length ≠ 0 := by
      cases pre with
      | nil => exact absurd rfl hne
      | cons p t => simp
    by_cases hf : c.state = "finished" <;>
      simp [check_operation_run, hnr, hf, hidx, hlen, eraseIdx_append_cons]

/-- Witness for the amended claim C8: a `cancelled` poll removes the
handle at index 1 when the handle at index 0 does not match. -/
theorem claim_C8_amended_witness :
    (check_operation_run "op2" "" (some (Snapshot.mk "cancelled"))
      [Op.mk "op1", Op.mk "op2"]).waiting = [Op.mk "op1"] :=
  (claim_C8_finished_asymmetry "op2" "" (Snapshot.mk "cancelled")
    [Op.mk "op1", Op.mk "op2"] (by decide)).2.2.2
    [Op.mk "op1"] (Op.mk "op2") [] rfl (by decide) (by decide) rfl

/-! ## Claim C9 — per-action isolation within a tick -/

/-- Claim C9 (counterexample): a tick whose first action has
`service == "caldera"` but no `task` field aborts before the second,
well-formed `run_operation` action — no creation attempt is made for it,
and the abort reaches the tick-level handler. -/
theorem claim_C9_counterexample :
    (tick scenarioMissingTask []).events = []
  ∧ (tick scenarioMissingTask []).aborted = true :=
  And.intro rfl rfl

/-- Claim C9 (amended): within one tick, actions are processed in list
order and the dispatch of every action whose `service` is missing, whose
service is not `caldera`, or which carries a `task` field continues to the
remaining actions — failures there are isolated per action; the single
exception is an action with `service == "caldera"` and no `task` field,
whose uncaught `KeyError` abandons the remaining actions of the tick. -/
theorem claim_C9_action_isolation (cr : Nat → Option Op) (a : ActionItem)
    (rest : List ActionItem) (callNo : Nat) (waiting : List Op)
    (events : List Event) :
    (a.service = none →
      dispatch_actions cr (a :: rest) callNo waiting events
        = dispatch_actions cr rest callNo waiting events)
  ∧ (∀ svc, a.service = some svc → svc ≠ "caldera" →
      dispatch_actions cr (a :: rest) callNo waiting events
        = dispatch_actions cr rest callNo waiting events)
  ∧ (a.service = some "caldera" → a.task = none →
      dispatch_actions cr (a :: rest) callNo waiting events
        = TickOutcome.mk events waiting true)
  ∧ (∀ tsk, a.service = some "caldera" → a.task = some tsk →
      ∃ callNo' waiting' events',
        dispatch_actions cr (a :: rest) callNo waiting events
          = dispatch_actions cr rest callNo' waiting' events') := by
  refine ⟨?_, ?_, ?_, ?_⟩
  · intro h
    simp [dispatch_actions, h]
  · intro svc hs hne
    simp [dispatch_actions, hs, hne]
  · intro hs ht
    simp [dispatch_actions, hs, ht]
  · intro tsk hs ht
    simp only [dispatch_actions, hs, ht]
    by_cases h1 : tsk = "run_operation"
    · subst h1
      simp only [if_pos rfl, reduceIte]
      rcases ha : a.adversary with _ | adv
      · simp only [ha]
        exact ⟨callNo, waiting, events, rfl⟩
      · rcases ho : a.operation_name with _ | opname
        · simp only [ha, ho]
          exact ⟨callNo, waiting, events, rfl⟩
        · simp only [ha, ho]
          by_cases he : adv = "" ∨ opname = ""
          · rw [if_pos he]
            exact ⟨callNo, waiting, events, rfl⟩
          · rw [if_neg he]
            rcases hr : retry_create_in_tick opname adv (a.group.getD "") cr 3
              callNo waiting events with ⟨ret, callNo', waiting', events'⟩
            cases ret with
            | some op =>
              exact ⟨callNo', waiting',
                events' ++ [Event.relay (some opname) (some op.id) (some "started")], rfl⟩
            | none =>
              exact ⟨callNo', waiting', events', rfl⟩
    · by_cases h2 : tsk = "check_operation" <;> simp [h1, h2]

/-- Witness for the amended claim C9: the abort case at a concrete action
with `service == "caldera"` and no task. -/
theorem claim_C9_amended_witness :
    dispatch_actions (fun _ => none)
      [ActionItem.mk (some "caldera") none none none none none] 0 [] []
      = TickOutcome.mk [] [] true :=
  (claim_C9_action_isolation (fun _ => none)
    (ActionItem.mk (some "caldera") none none none none none) [] 0 [] []).2.2.1 rfl rfl

end GsxLab
